import Mathlib

/-!
# Conflict simulator on a ledger gateway: embedding of `main.go`

The Go program is glue code over external collaborators (the wallet, the file
system, the gateway, the logger and a `sync.WaitGroup`).  Every call to a
collaborator is an operation of a small program tree (`Prog`); the Go functions
`addAdminIdentityToWallet` and `writeToKey` are translated statement by statement
into that tree.  A sequential interpreter (`run`) executes a tree against an
arbitrary implementation of the collaborators (`Collab`) over an arbitrary world
state and records the trace of calls; a scheduler (`Sys.step`) interleaves the
trees of the two goroutines started by `main`.
-/

namespace ConflictSim

/-! ## Constants of `main.go` -/

def walletPath : String := "wallet"
def connectionProfile : String := "connection-profile.yaml"
def chaincodeName : String := "mychaincode"
def channelName : String := "mychannel"
def orgMSP : String := "Org1MSP"
def adminIdentity : String := "Admin"

/-- Path built by `filepath.Join(walletPath, "signcerts", "cert.pem")`. The
elements are non-empty and already clean, so the join is the elements separated
by the path separator. -/
def certPath : String := walletPath ++ "/" ++ "signcerts" ++ "/" ++ "cert.pem"

/-- Path built by `filepath.Join(walletPath, "keystore", "..._sk")`. -/
def keyPath : String :=
  walletPath ++ "/" ++ "keystore" ++ "/" ++
    "0974853793a9492bc021a8453e71d3d49a4173ff1ef01b2e298b515b93f56686_sk"

/-! ## Data model -/

/-- Go `error` values: either produced by a collaborator, or built by
`fmt.Errorf` with the `%w` verb, which keeps the wrapped error. -/
inductive GoError where
  | leaf (msg : String)
  | wrap (msg : String) (inner : GoError)
  deriving DecidableEq, Repr

/-- The method `Error()`. -/
def GoError.Error : GoError → String
  | .leaf m => m
  | .wrap m _ => m

/-- The function `errors.Unwrap`. -/
def GoError.Unwrap : GoError → Option GoError
  | .leaf _ => none
  | .wrap _ e => some e

/-- The call `fmt.Errorf(pre + "%w", err)`: the message is the format with the
text of `err` substituted, and the result wraps `err`. -/
def errorfW (pre : String) (err : GoError) : GoError :=
  .wrap (pre ++ err.Error) err

/-- The value built by `gateway.NewX509Identity(mspid, cert, key)`. -/
structure X509Identity where
  mspID : String
  certificate : String
  key : String
  deriving DecidableEq, Repr

def NewX509Identity (mspid cert key : String) : X509Identity :=
  ⟨mspid, cert, key⟩

/-- One observable action of a goroutine. Fallible collaborator calls record
whether they returned a nil error (`ok`). -/
inductive Event where
  | newFileSystemWallet (path : String) (ok : Bool)
  | walletExists (label : String) (found : Bool)
  | readFile (path : String) (ok : Bool)
  | walletPut (label : String) (id : X509Identity) (ok : Bool)
  | connect (profile : String) (label : String) (ok : Bool)
  | getNetwork (channel : String) (ok : Bool)
  | getContract (name : String)
  | submitTransaction (name : String) (args : List String) (ok : Bool)
  | gwClose
  | log (msg : String)
  | wgDone
  deriving DecidableEq, Repr

/-! ## Programs over the collaborators -/

/-- A sequential Go function body as a tree of collaborator calls; each node
carries the continuation that receives the value the call returns. -/
inductive Prog (Wal Gw Net Con : Type) (α : Type) : Type where
  | pure (a : α)
  | newFileSystemWallet (path : String) (k : Except GoError Wal → Prog Wal Gw Net Con α)
  | walletExists (w : Wal) (label : String) (k : Bool → Prog Wal Gw Net Con α)
  | readFile (path : String) (k : Except GoError String → Prog Wal Gw Net Con α)
  | walletPut (w : Wal) (label : String) (id : X509Identity)
      (k : Option GoError → Prog Wal Gw Net Con α)
  | connect (profile : String) (w : Wal) (label : String)
      (k : Except GoError Gw → Prog Wal Gw Net Con α)
  | getNetwork (gw : Gw) (channel : String) (k : Except GoError Net → Prog Wal Gw Net Con α)
  | getContract (n : Net) (name : String) (k : Con → Prog Wal Gw Net Con α)
  | submitTransaction (c : Con) (name : String) (args : List String)
      (k : Except GoError String → Prog Wal Gw Net Con α)
  | gwClose (gw : Gw) (k : Prog Wal Gw Net Con α)
  | log (msg : String) (k : Prog Wal Gw Net Con α)
  | wgDone (k : Prog Wal Gw Net Con α)

namespace Prog

variable {Wal Gw Net Con : Type} {α β : Type}

/-- Sequencing of two program trees. -/
def bind : Prog Wal Gw Net Con α → (α → Prog Wal Gw Net Con β) → Prog Wal Gw Net Con β
  | .pure a, f => f a
  | .newFileSystemWallet p k, f => .newFileSystemWallet p fun r => (k r).bind f
  | .walletExists w l k, f => .walletExists w l fun r => (k r).bind f
  | .readFile p k, f => .readFile p fun r => (k r).bind f
  | .walletPut w l i k, f => .walletPut w l i fun r => (k r).bind f
  | .connect p w l k, f => .connect p w l fun r => (k r).bind f
  | .getNetwork g c k, f => .getNetwork g c fun r => (k r).bind f
  | .getContract n c k, f => .getContract n c fun r => (k r).bind f
  | .submitTransaction c n a k, f => .submitTransaction c n a fun r => (k r).bind f
  | .gwClose g k, f => .gwClose g (k.bind f)
  | .log m k, f => .log m (k.bind f)
  | .wgDone k, f => .wgDone (k.bind f)

instance : Monad (Prog Wal Gw Net Con) where
  pure := Prog.pure
  bind := Prog.bind

end Prog

section Calls

variable {Wal Gw Net Con : Type}

/-- The call `gateway.NewFileSystemWallet(path)`. -/
def NewFileSystemWallet (path : String) : Prog Wal Gw Net Con (Except GoError Wal) :=
  .newFileSystemWallet path .pure

/-- The call `wallet.Exists(label)`. -/
def walletExists (w : Wal) (label : String) : Prog Wal Gw Net Con Bool :=
  .walletExists w label .pure

/-- The call `ioutil.ReadFile(path)`. -/
def ReadFile (path : String) : Prog Wal Gw Net Con (Except GoError String) :=
  .readFile path .pure

/-- The call `wallet.Put(label, identity)`; `none` is the nil error. -/
def walletPut (w : Wal) (label : String) (id : X509Identity) :
    Prog Wal Gw Net Con (Option GoError) :=
  .walletPut w label id .pure

/-- The call `gateway.Connect(WithConfig(FromFile(profile)), WithIdentity(wallet, label))`. -/
def Connect (profile : String) (w : Wal) (label : String) :
    Prog Wal Gw Net Con (Except GoError Gw) :=
  .connect profile w label .pure

/-- The call `gw.GetNetwork(channel)`. -/
def GetNetwork (gw : Gw) (channel : String) : Prog Wal Gw Net Con (Except GoError Net) :=
  .getNetwork gw channel .pure

/-- The call `network.GetContract(name)`. -/
def GetContract (n : Net) (name : String) : Prog Wal Gw Net Con Con :=
  .getContract n name .pure

/-- The call `contract.SubmitTransaction(name, args...)`. -/
def SubmitTransaction (c : Con) (name : String) (args : List String) :
    Prog Wal Gw Net Con (Except GoError String) :=
  .submitTransaction c name args .pure

/-- The call `gw.Close()`. -/
def gwClose (gw : Gw) : Prog Wal Gw Net Con Unit :=
  .gwClose gw (.pure ())

/-- The calls `log.Println(msg)` and `log.Printf(format, args...)`, with `msg`
the formatted message handed to the standard logger. -/
def logPrint (msg : String) : Prog Wal Gw Net Con Unit :=
  .log msg (.pure ())

/-- The call `wg.Done()`. -/
def wgDone : Prog Wal Gw Net Con Unit :=
  .wgDone (.pure ())

/-! ## The functions of `main.go` -/

/-- Go function `addAdminIdentityToWallet` (main.go lines 34-57); `none` is the
nil error. -/
def addAdminIdentityToWallet (wallet : Wal) : Prog Wal Gw Net Con (Option GoError) := do
  logPrint "[Admin Setup] Adding Admin identity to wallet."
  match ← ReadFile certPath with
  | .error err => return some (errorfW "failed to read cert.pem: " err)
  | .ok cert =>
  match ← ReadFile keyPath with
  | .error err => return some (errorfW "failed to read private key: " err)
  | .ok key =>
  let identity := NewX509Identity orgMSP cert key
  match ← walletPut wallet adminIdentity identity with
  | some err => return some (errorfW "failed to add Admin identity to wallet: " err)
  | none =>
  logPrint "[Admin Setup] Admin identity successfully added to wallet."
  return none

/-- The statements of `writeToKey` that follow `defer gw.Close()` (main.go
lines 91-107). -/
def writeToKeyConnected (clientID key value : String) (gw : Gw) :
    Prog Wal Gw Net Con Unit := do
  match ← GetNetwork gw channelName with
  | .error err =>
    logPrint ("[" ++ clientID ++ "] Failed to get network: " ++ err.Error)
    return
  | .ok network =>
  let contract ← GetContract network chaincodeName
  match ← SubmitTransaction contract "PutState" [key, value] with
  | .error err =>
    logPrint ("[" ++ clientID ++ "] Failed to submit transaction: " ++ err.Error)
    return
  | .ok _ =>
  logPrint ("[" ++ clientID ++ "] Successfully wrote key: " ++ key ++ " with value: " ++ value)

/-- The identity check of `writeToKey` (main.go lines 69-78): the result is the
error that makes `writeToKey` return, `none` when it goes on to connect. -/
def ensureAdminIdentity (clientID : String) (wallet : Wal) :
    Prog Wal Gw Net Con (Option GoError) := do
  if !(← walletExists wallet adminIdentity) then
    logPrint ("[" ++ clientID ++ "] Admin identity not found in wallet. Adding identity.")
    match ← addAdminIdentityToWallet wallet with
    | some err =>
      logPrint ("[" ++ clientID ++ "] Failed to add Admin identity: " ++ err.Error)
      return some err
    | none => pure ()
  return none

/-- The statements of `writeToKey` that follow `defer wg.Done()` (main.go lines
62-107). The deferred `gw.Close()` runs when the statements after it return. -/
def writeToKeyBody (clientID key value : String) : Prog Wal Gw Net Con Unit := do
  match ← NewFileSystemWallet walletPath with
  | .error err =>
    logPrint ("[" ++ clientID ++ "] Failed to create wallet: " ++ err.Error)
    return
  | .ok wallet =>
  match ← ensureAdminIdentity clientID wallet with
  | some _ => return
  | none =>
  match ← Connect connectionProfile wallet adminIdentity with
  | .error err =>
    logPrint ("[" ++ clientID ++ "] Failed to connect to gateway: " ++ err.Error)
    return
  | .ok gw =>
  writeToKeyConnected clientID key value gw
  gwClose gw

/-- Go function `writeToKey` (main.go lines 59-108). The deferred `wg.Done()`
runs last, after the deferred `gw.Close()`. -/
def writeToKey (clientID key value : String) : Prog Wal Gw Net Con Unit := do
  writeToKeyBody clientID key value
  wgDone

end Calls

/-! ## Sequential execution against the collaborators -/

/-- An implementation of the external collaborators over a world state `W`.
Every call may fail or succeed and may change the world. -/
structure Collab (W Wal Gw Net Con : Type) where
  newFileSystemWallet : String → W → Except GoError Wal × W
  walletExists : Wal → String → W → Bool × W
  readFile : String → W → Except GoError String × W
  walletPut : Wal → String → X509Identity → W → Option GoError × W
  connect : String → Wal → String → W → Except GoError Gw × W
  getNetwork : Gw → String → W → Except GoError Net × W
  getContract : Net → String → W → Con × W
  submitTransaction : Con → String → List String → W → Except GoError String × W
  close : Gw → W → W

/-- Whether a call that returns `(value, error)` returned a nil error. -/
def isOk {α : Type} : Except GoError α → Bool
  | .ok _ => true
  | .error _ => false

/-- Whether a returned `error` is nil. -/
def isNil : Option GoError → Bool
  | none => true
  | some _ => false

/-- What a finished execution leaves: the returned value, the world and the
calls made, in order. -/
structure Outcome (W α : Type) where
  value : α
  world : W
  trace : List Event

section Run

variable {W Wal Gw Net Con : Type} {α β : Type}

/-- Executes a program tree to its end against the collaborators. -/
def run (c : Collab W Wal Gw Net Con) : Prog Wal Gw Net Con α → W → Outcome W α
  | .pure a, w => ⟨a, w, []⟩
  | .newFileSystemWallet p k, w =>
    let r := c.newFileSystemWallet p w
    let o := run c (k r.1) r.2
    ⟨o.value, o.world, Event.newFileSystemWallet p (isOk r.1) :: o.trace⟩
  | .walletExists wal l k, w =>
    let r := c.walletExists wal l w
    let o := run c (k r.1) r.2
    ⟨o.value, o.world, Event.walletExists l r.1 :: o.trace⟩
  | .readFile p k, w =>
    let r := c.readFile p w
    let o := run c (k r.1) r.2
    ⟨o.value, o.world, Event.readFile p (isOk r.1) :: o.trace⟩
  | .walletPut wal l i k, w =>
    let r := c.walletPut wal l i w
    let o := run c (k r.1) r.2
    ⟨o.value, o.world, Event.walletPut l i (isNil r.1) :: o.trace⟩
  | .connect p wal l k, w =>
    let r := c.connect p wal l w
    let o := run c (k r.1) r.2
    ⟨o.value, o.world, Event.connect p l (isOk r.1) :: o.trace⟩
  | .getNetwork g ch k, w =>
    let r := c.getNetwork g ch w
    let o := run c (k r.1) r.2
    ⟨o.value, o.world, Event.getNetwork ch (isOk r.1) :: o.trace⟩
  | .getContract n nm k, w =>
    let r := c.getContract n nm w
    let o := run c (k r.1) r.2
    ⟨o.value, o.world, Event.getContract nm :: o.trace⟩
  | .submitTransaction con nm args k, w =>
    let r := c.submitTransaction con nm args w
    let o := run c (k r.1) r.2
    ⟨o.value, o.world, Event.submitTransaction nm args (isOk r.1) :: o.trace⟩
  | .gwClose g k, w =>
    let o := run c k (c.close g w)
    ⟨o.value, o.world, Event.gwClose :: o.trace⟩
  | .log m k, w =>
    let o := run c k w
    ⟨o.value, o.world, Event.log m :: o.trace⟩
  | .wgDone k, w =>
    let o := run c k w
    ⟨o.value, o.world, Event.wgDone :: o.trace⟩

end Run

/-! ## Shapes of the traces of `writeToKey` -/

/-- Events of `writeToKey` up to the call of `gateway.Connect` when the wallet
is built and the bootstrap does not fail: either the identity is found, or it is
read from the two files and put in the wallet. -/
def IsBootstrapTrace (clientID : String) (pre : List Event) : Prop :=
  pre = [Event.newFileSystemWallet walletPath true, Event.walletExists adminIdentity true] ∨
  ∃ cert key : String, pre =
    [Event.newFileSystemWallet walletPath true, Event.walletExists adminIdentity false,
     Event.log ("[" ++ clientID ++ "] Admin identity not found in wallet. Adding identity."),
     Event.log "[Admin Setup] Adding Admin identity to wallet.",
     Event.readFile certPath true, Event.readFile keyPath true,
     Event.walletPut adminIdentity (NewX509Identity orgMSP cert key) true,
     Event.log "[Admin Setup] Admin identity successfully added to wallet."]

/-- The shapes a trace of `writeToKey` can take, one per place where the
function returns. -/
def IsWorkflowTrace (clientID key value : String) (t : List Event) : Prop :=
  (∃ e : GoError, t =
    [Event.newFileSystemWallet walletPath false,
     Event.log ("[" ++ clientID ++ "] Failed to create wallet: " ++ e.Error),
     Event.wgDone]) ∨
  (∃ e : GoError, t =
    [Event.newFileSystemWallet walletPath true, Event.walletExists adminIdentity false,
     Event.log ("[" ++ clientID ++ "] Admin identity not found in wallet. Adding identity."),
     Event.log "[Admin Setup] Adding Admin identity to wallet.",
     Event.readFile certPath false,
     Event.log ("[" ++ clientID ++ "] Failed to add Admin identity: " ++
       (errorfW "failed to read cert.pem: " e).Error),
     Event.wgDone]) ∨
  (∃ e : GoError, t =
    [Event.newFileSystemWallet walletPath true, Event.walletExists adminIdentity false,
     Event.log ("[" ++ clientID ++ "] Admin identity not found in wallet. Adding identity."),
     Event.log "[Admin Setup] Adding Admin identity to wallet.",
     Event.readFile certPath true, Event.readFile keyPath false,
     Event.log ("[" ++ clientID ++ "] Failed to add Admin identity: " ++
       (errorfW "failed to read private key: " e).Error),
     Event.wgDone]) ∨
  (∃ (cert pk : String) (e : GoError), t =
    [Event.newFileSystemWallet walletPath true, Event.walletExists adminIdentity false,
     Event.log ("[" ++ clientID ++ "] Admin identity not found in wallet. Adding identity."),
     Event.log "[Admin Setup] Adding Admin identity to wallet.",
     Event.readFile certPath true, Event.readFile keyPath true,
     Event.walletPut adminIdentity (NewX509Identity orgMSP cert pk) false,
     Event.log ("[" ++ clientID ++ "] Failed to add Admin identity: " ++
       (errorfW "failed to add Admin identity to wallet: " e).Error),
     Event.wgDone]) ∨
  ∃ pre : List Event, IsBootstrapTrace clientID pre ∧
    ((∃ e : GoError, t = pre ++
      [Event.connect connectionProfile adminIdentity false,
       Event.log ("[" ++ clientID ++ "] Failed to connect to gateway: " ++ e.Error),
       Event.wgDone]) ∨
     (∃ e : GoError, t = pre ++
      [Event.connect connectionProfile adminIdentity true,
       Event.getNetwork channelName false,
       Event.log ("[" ++ clientID ++ "] Failed to get network: " ++ e.Error),
       Event.gwClose, Event.wgDone]) ∨
     (∃ e : GoError, t = pre ++
      [Event.connect connectionProfile adminIdentity true,
       Event.getNetwork channelName true, Event.getContract chaincodeName,
       Event.submitTransaction "PutState" [key, value] false,
       Event.log ("[" ++ clientID ++ "] Failed to submit transaction: " ++ e.Error),
       Event.gwClose, Event.wgDone]) ∨
     t = pre ++
      [Event.connect connectionProfile adminIdentity true,
       Event.getNetwork channelName true, Event.getContract chaincodeName,
       Event.submitTransaction "PutState" [key, value] true,
       Event.log ("[" ++ clientID ++ "] Successfully wrote key: " ++ key ++
         " with value: " ++ value),
       Event.gwClose, Event.wgDone])

/-! ## Observations on traces -/

/-- The message of a logger call. -/
def Event.logMsg : Event → Option String
  | .log m => some m
  | _ => none

/-- The messages handed to the logger during an execution, in order. -/
def logLines (t : List Event) : List String :=
  t.filterMap Event.logMsg

/-- Whether `line` begins with the text `pre`. -/
def startsWith (line pre : String) : Bool :=
  pre.data.isPrefixOf line.data

/-- A line tagged by a client identifier begins with `[clientID]`. -/
def isTagged (clientID line : String) : Bool :=
  startsWith line ("[" ++ clientID ++ "]")

/-- A failure line of a client begins with `[clientID] Failed`. -/
def isFailureLine (clientID line : String) : Bool :=
  startsWith line ("[" ++ clientID ++ "] Failed")

/-- The success line of a client begins with `[clientID] Successfully wrote key`. -/
def isSuccessLine (clientID line : String) : Bool :=
  startsWith line ("[" ++ clientID ++ "] Successfully wrote key")

def Event.isReadFile : Event → Bool
  | .readFile _ _ => true
  | _ => false

def Event.isPut : Event → Bool
  | .walletPut _ _ _ => true
  | _ => false

def Event.isSubmit : Event → Bool
  | .submitTransaction _ _ _ => true
  | _ => false

def Event.isLog : Event → Bool
  | .log _ => true
  | _ => false

/-- A collaborator call that returned an error. An absent identity
(`wallet.Exists` returning false) is not a failure. -/
def Event.isFailure : Event → Bool
  | .newFileSystemWallet _ ok => !ok
  | .readFile _ ok => !ok
  | .walletPut _ _ ok => !ok
  | .connect _ _ ok => !ok
  | .getNetwork _ ok => !ok
  | .submitTransaction _ _ ok => !ok
  | _ => false

/-- A failure at one of the steps that precede the submission: building the
wallet, the bootstrap (file reads and `Put`), `Connect`, `GetNetwork`. -/
def Event.isEarlyFailure : Event → Bool
  | .submitTransaction _ _ _ => false
  | e => e.isFailure

/-- The text with which `writeToKey` reports the failure of a call, after the
client tag. For the calls made by `addAdminIdentityToWallet` it includes the
text that function puts in front of the error it wraps. -/
def Event.failureText : Event → String
  | .newFileSystemWallet _ _ => "Failed to create wallet: "
  | .readFile p _ =>
    if p = certPath then "Failed to add Admin identity: failed to read cert.pem: "
    else "Failed to add Admin identity: failed to read private key: "
  | .walletPut _ _ _ => "Failed to add Admin identity: failed to add Admin identity to wallet: "
  | .connect _ _ _ => "Failed to connect to gateway: "
  | .getNetwork _ _ => "Failed to get network: "
  | .submitTransaction _ _ _ => "Failed to submit transaction: "
  | _ => ""

/-- A call of `gateway.Connect` that returned a gateway. -/
def Event.isConnectOk : Event → Bool
  | .connect _ _ ok => ok
  | _ => false

/-- The first call of a trace that returned an error, if any. -/
def firstFailure (t : List Event) : Option Event :=
  t.find? Event.isFailure

/-- What a trace holds after its first failed call. -/
def afterFirstFailure (t : List Event) : List Event :=
  (t.dropWhile fun e => !e.isFailure).tail

/-- The counter of the `sync.WaitGroup` after the calls of a trace: every
`wg.Done()` subtracts one. -/
def wgCounter (n : Int) : List Event → Int
  | [] => n
  | .wgDone :: t => wgCounter (n - 1) t
  | _ :: t => wgCounter n t

/-! ## A test double of the collaborators -/

/-- World of the test double: what is on disk, in the identity store and on
the ledger. -/
structure FakeWorld where
  walletDirOk : Bool
  files : List (String × String)
  stored : List String
  gatewayUp : Bool
  channels : List String
  ledger : List (String × String)
  deriving DecidableEq, Repr

/-- A test double of the collaborators: files are looked up in the world,
`Put` stores the label, `Connect` needs the identity, and the ledger accepts
only the first write of a key. -/
def fakeCollab : Collab FakeWorld Unit Unit Unit Unit where
  newFileSystemWallet _ w :=
    if w.walletDirOk then (.ok (), w) else (.error (.leaf "mkdir wallet: permission denied"), w)
  walletExists _ l w := (w.stored.contains l, w)
  readFile p w :=
    match w.files.lookup p with
    | some content => (.ok content, w)
    | none => (.error (.leaf ("open " ++ p ++ ": no such file or directory")), w)
  walletPut _ l _ w := (none, { w with stored := l :: w.stored })
  connect _ _ l w :=
    if w.gatewayUp && w.stored.contains l then (.ok (), w)
    else (.error (.leaf "gateway unreachable"), w)
  getNetwork _ ch w :=
    if w.channels.contains ch then (.ok (), w) else (.error (.leaf "channel not found"), w)
  getContract _ _ w := ((), w)
  submitTransaction _ _ args w :=
    match args with
    | [k, v] =>
      match w.ledger.lookup k with
      | some _ => (.error (.leaf "MVCC_READ_CONFLICT"), w)
      | none => (.ok "", { w with ledger := (k, v) :: w.ledger })
    | _ => (.error (.leaf "bad arguments"), w)
  close _ w := w

/-- A world in which every step of the workflow succeeds and the identity has
not been stored yet. -/
def freshWorld : FakeWorld where
  walletDirOk := true
  files := [(certPath, "CERT"), (keyPath, "KEY")]
  stored := []
  gatewayUp := true
  channels := [channelName]
  ledger := []

/-- The fresh world without the certificate file. -/
def noCertWorld : FakeWorld :=
  { freshWorld with files := [(keyPath, "KEY")] }

/-! ## The driver and its goroutines -/

/-- The statements of `main` that act on the WaitGroup, start a goroutine or
print. -/
inductive MainStmt where
  | wgAdd (delta : Int)
  | goWriteToKey (clientID key value : String)
  | wgWait
  | println (line : String)
  deriving DecidableEq, Repr

/-- Go function `main` (main.go lines 110-125). -/
def main : List MainStmt :=
  let key := "conflictKey"
  let client1Value := "ValueFromClient1"
  let client2Value := "ValueFromClient2"
  [.wgAdd 2,
   .goWriteToKey "Client1" key client1Value,
   .goWriteToKey "Client2" key client2Value,
   .wgWait,
   .println "Both clients attempted to write to the same key."]

/-- The workflows a list of statements launches, as (clientID, key, value). -/
def launched : List MainStmt → List (String × String × String)
  | [] => []
  | .goWriteToKey cid k v :: rest => (cid, k, v) :: launched rest
  | _ :: rest => launched rest

/-- The sum of the deltas given to `wg.Add`. -/
def addedTotal : List MainStmt → Int
  | [] => 0
  | .wgAdd d :: rest => d + addedTotal rest
  | _ :: rest => addedTotal rest

/-- Who takes the next step: the main goroutine or the `i`-th goroutine it
started. -/
inductive Actor where
  | main
  | worker (i : Nat)
  deriving DecidableEq, Repr

/-- One step of the whole program. -/
inductive SysEvent where
  | main (s : MainStmt)
  | worker (i : Nat) (e : Event)
  deriving DecidableEq, Repr

/-- A line printed on standard output. -/
def SysEvent.isPrintln : SysEvent → Bool
  | .main (.println _) => true
  | _ => false

/-- A call to a collaborator or to the logger made by a workflow. -/
def SysEvent.isWorker : SysEvent → Bool
  | .worker _ _ => true
  | _ => false

section System

variable {W Wal Gw Net Con : Type} {α : Type}

/-- One call of a program tree: the event, what is left to run, and the world
after the call; `none` when the function has returned. -/
def Prog.step (c : Collab W Wal Gw Net Con) :
    Prog Wal Gw Net Con α → W → Option (Event × Prog Wal Gw Net Con α × W)
  | .pure _, _ => none
  | .newFileSystemWallet p k, w =>
    let r := c.newFileSystemWallet p w
    some (Event.newFileSystemWallet p (isOk r.1), k r.1, r.2)
  | .walletExists wal l k, w =>
    let r := c.walletExists wal l w
    some (Event.walletExists l r.1, k r.1, r.2)
  | .readFile p k, w =>
    let r := c.readFile p w
    some (Event.readFile p (isOk r.1), k r.1, r.2)
  | .walletPut wal l i k, w =>
    let r := c.walletPut wal l i w
    some (Event.walletPut l i (isNil r.1), k r.1, r.2)
  | .connect p wal l k, w =>
    let r := c.connect p wal l w
    some (Event.connect p l (isOk r.1), k r.1, r.2)
  | .getNetwork g ch k, w =>
    let r := c.getNetwork g ch w
    some (Event.getNetwork ch (isOk r.1), k r.1, r.2)
  | .getContract n nm k, w =>
    let r := c.getContract n nm w
    some (Event.getContract nm, k r.1, r.2)
  | .submitTransaction con nm args k, w =>
    let r := c.submitTransaction con nm args w
    some (Event.submitTransaction nm args (isOk r.1), k r.1, r.2)
  | .gwClose g k, w => some (Event.gwClose, k, c.close g w)
  | .log m k, w => some (Event.log m, k, w)
  | .wgDone k, w => some (Event.wgDone, k, w)

/-- State of the running program: the shared world, the WaitGroup counter, the
statements `main` has still to execute, what each started goroutine has still
to run, and the steps taken so far. -/
structure Sys (W Wal Gw Net Con : Type) where
  world : W
  counter : Int
  mainRest : List MainStmt
  workers : List (Prog Wal Gw Net Con Unit)
  out : List SysEvent

/-- The program before `main` starts: `var wg sync.WaitGroup` has counter 0. -/
def Sys.init (w : W) : Sys W Wal Gw Net Con :=
  ⟨w, 0, main, [], []⟩

/-- One step of the chosen goroutine, `none` when it cannot step: `main` or
the goroutine has returned, the goroutine does not exist, or `main` is blocked
in `wg.Wait()` on a counter that is not zero. `wg.Done()` is `wg.Add(-1)`. -/
def Sys.step (c : Collab W Wal Gw Net Con) (a : Actor) (s : Sys W Wal Gw Net Con) :
    Option (Sys W Wal Gw Net Con) :=
  match a with
  | .main =>
    match s.mainRest with
    | [] => none
    | .wgAdd d :: rest =>
      some ⟨s.world, s.counter + d, rest, s.workers, s.out ++ [.main (.wgAdd d)]⟩
    | .goWriteToKey cid k v :: rest =>
      some ⟨s.world, s.counter, rest, s.workers ++ [writeToKey cid k v],
        s.out ++ [.main (.goWriteToKey cid k v)]⟩
    | .wgWait :: rest =>
      if s.counter = 0 then
        some ⟨s.world, s.counter, rest, s.workers, s.out ++ [.main .wgWait]⟩
      else none
    | .println l :: rest =>
      some ⟨s.world, s.counter, rest, s.workers, s.out ++ [.main (.println l)]⟩
  | .worker i =>
    match s.workers[i]? with
    | none => none
    | some p =>
      match p.step c s.world with
      | none => none
      | some (e, p', w') =>
        some ⟨w', if e = Event.wgDone then s.counter - 1 else s.counter, s.mainRest,
          s.workers.set i p', s.out ++ [.worker i e]⟩

/-- Runs a schedule: the goroutines step in the given order; `none` when a
scheduled goroutine cannot step. -/
def Sys.exec (c : Collab W Wal Gw Net Con) :
    List Actor → Sys W Wal Gw Net Con → Option (Sys W Wal Gw Net Con)
  | [], s => some s
  | a :: rest, s =>
    match s.step c a with
    | none => none
    | some s' => Sys.exec c rest s'

/-- `Pending n p`: whatever the collaborators return, the goroutine `p` makes
at most `n` more calls, and the last of them is its only `wg.Done()`. -/
inductive Pending : Nat → Prog Wal Gw Net Con Unit → Prop where
  | wgDone (n : Nat) : Pending (n + 1) (.wgDone (.pure ()))
  | newFileSystemWallet (n : Nat) (p : String) (k : Except GoError Wal → Prog Wal Gw Net Con Unit) :
      (∀ r, Pending n (k r)) → Pending (n + 1) (.newFileSystemWallet p k)
  | walletExists (n : Nat) (wal : Wal) (l : String) (k : Bool → Prog Wal Gw Net Con Unit) :
      (∀ r, Pending n (k r)) → Pending (n + 1) (.walletExists wal l k)
  | readFile (n : Nat) (p : String) (k : Except GoError String → Prog Wal Gw Net Con Unit) :
      (∀ r, Pending n (k r)) → Pending (n + 1) (.readFile p k)
  | walletPut (n : Nat) (wal : Wal) (l : String) (i : X509Identity)
      (k : Option GoError → Prog Wal Gw Net Con Unit) :
      (∀ r, Pending n (k r)) → Pending (n + 1) (.walletPut wal l i k)
  | connect (n : Nat) (p : String) (wal : Wal) (l : String)
      (k : Except GoError Gw → Prog Wal Gw Net Con Unit) :
      (∀ r, Pending n (k r)) → Pending (n + 1) (.connect p wal l k)
  | getNetwork (n : Nat) (g : Gw) (ch : String) (k : Except GoError Net → Prog Wal Gw Net Con Unit) :
      (∀ r, Pending n (k r)) → Pending (n + 1) (.getNetwork g ch k)
  | getContract (n : Nat) (nt : Net) (nm : String) (k : Con → Prog Wal Gw Net Con Unit) :
      (∀ r, Pending n (k r)) → Pending (n + 1) (.getContract nt nm k)
  | submitTransaction (n : Nat) (con : Con) (nm : String) (args : List String)
      (k : Except GoError String → Prog Wal Gw Net Con Unit) :
      (∀ r, Pending n (k r)) → Pending (n + 1) (.submitTransaction con nm args k)
  | gwClose (n : Nat) (g : Gw) (k : Prog Wal Gw Net Con Unit) :
      Pending n k → Pending (n + 1) (.gwClose g k)
  | log (n : Nat) (m : String) (k : Prog Wal Gw Net Con Unit) :
      Pending n k → Pending (n + 1) (.log m k)

/-- State of a started goroutine: either it still has at most `n` calls to make,
that end with its `wg.Done()` (`d = 1`), or it has called `wg.Done()` and
returned (`d = 0`). -/
def WorkerInv (out : List SysEvent) (i n : Nat) (d : Int) (p : Prog Wal Gw Net Con Unit) :
    Prop :=
  (Pending n p ∧ d = 1) ∨
  (p = .pure () ∧ n = 0 ∧ d = 0 ∧ SysEvent.worker i Event.wgDone ∈ out)

/-- Invariant of the running program, with `m` a bound on the number of steps
it can still take. -/
def Inv (s : Sys W Wal Gw Net Con) (m : Nat) : Prop :=
  (s.mainRest = main ∧ s.counter = 0 ∧ s.workers = [] ∧ s.out = [] ∧ m = 35) ∨
  (s.mainRest = main.drop 1 ∧ s.counter = 2 ∧ s.workers = [] ∧
    s.out.countP SysEvent.isPrintln = 0 ∧ s.out.countP SysEvent.isWorker = 0 ∧ m = 34) ∨
  (s.mainRest = main.drop 2 ∧ s.out.countP SysEvent.isPrintln = 0 ∧
    ∃ p1 n1 d1, s.workers = [p1] ∧ WorkerInv s.out 0 n1 d1 p1 ∧ n1 ≤ 15 ∧
      s.counter = 1 + d1 ∧ m = 18 + n1) ∨
  (s.mainRest = main.drop 3 ∧ s.out.countP SysEvent.isPrintln = 0 ∧
    ∃ p1 p2 n1 n2 d1 d2, s.workers = [p1, p2] ∧ WorkerInv s.out 0 n1 d1 p1 ∧
      WorkerInv s.out 1 n2 d2 p2 ∧ n1 ≤ 15 ∧ n2 ≤ 15 ∧ s.counter = d1 + d2 ∧
      m = 2 + n1 + n2) ∨
  (s.mainRest = main.drop 4 ∧ s.out.countP SysEvent.isPrintln = 0 ∧
    s.workers = [.pure (), .pure ()] ∧ s.counter = 0 ∧
    SysEvent.worker 0 Event.wgDone ∈ s.out ∧ SysEvent.worker 1 Event.wgDone ∈ s.out ∧ m = 1) ∨
  (s.mainRest = [] ∧ s.workers = [.pure (), .pure ()] ∧ m = 0 ∧
    ∃ pre, s.out = pre ++ [.main (.println "Both clients attempted to write to the same key.")] ∧
      pre.countP SysEvent.isPrintln = 0 ∧
      SysEvent.worker 0 Event.wgDone ∈ pre ∧ SysEvent.worker 1 Event.wgDone ∈ pre)

end System

/-! ## A concrete run of the program -/

/-- A schedule of the program on the test double: `main` starts the two
workflows, which then alternate call by call until both have returned, and
`main` finishes. -/
def demoSchedule : List Actor :=
  [.main, .main, .main] ++
  (List.replicate 15 [Actor.worker 0, Actor.worker 1]).flatten ++
  [.main, .main]

/-- The state the schedule `demoSchedule` leaves from the fresh world. -/
def demoFinal : Sys FakeWorld Unit Unit Unit Unit :=
  (Sys.exec fakeCollab demoSchedule (Sys.init freshWorld)).getD (Sys.init freshWorld)

/-! ## Lemmas on sequential execution -/

section RunLemmas

variable {W Wal Gw Net Con : Type} {α β : Type}

theorem run_bind (c : Collab W Wal Gw Net Con) (p : Prog Wal Gw Net Con α)
    (f : α → Prog Wal Gw Net Con β) (w : W) :
    run c (p >>= f) w =
      ⟨(run c (f (run c p w).value) (run c p w).world).value,
       (run c (f (run c p w).value) (run c p w).world).world,
       (run c p w).trace ++ (run c (f (run c p w).value) (run c p w).world).trace⟩ := by
  show run c (p.bind f) w = _
  induction p generalizing w with
  | pure a => simp [Prog.bind, run]
  | newFileSystemWallet p k ih => simp [Prog.bind, run, ih]
  | walletExists wal l k ih => simp [Prog.bind, run, ih]
  | readFile p k ih => simp [Prog.bind, run, ih]
  | walletPut wal l i k ih => simp [Prog.bind, run, ih]
  | connect p wal l k ih => simp [Prog.bind, run, ih]
  | getNetwork g ch k ih => simp [Prog.bind, run, ih]
  | getContract n nm k ih => simp [Prog.bind, run, ih]
  | submitTransaction con nm args k ih => simp [Prog.bind, run, ih]
  | gwClose g k ih => simp [Prog.bind, run, ih]
  | log m k ih => simp [Prog.bind, run, ih]
  | wgDone k ih => simp [Prog.bind, run, ih]

theorem run_pure (c : Collab W Wal Gw Net Con) (a : α) (w : W) :
    run c (Pure.pure a : Prog Wal Gw Net Con α) w = ⟨a, w, []⟩ := rfl

theorem bind_eq (p : Prog Wal Gw Net Con α) (f : α → Prog Wal Gw Net Con β) :
    p >>= f = p.bind f := rfl

theorem pure_eq (a : α) : (Pure.pure a : Prog Wal Gw Net Con α) = Prog.pure a := rfl

theorem run_writeToKey_connected (c : Collab W Wal Gw Net Con) (cid k v : String) (gw : Gw)
    (w : W) (pre : List Event) (hpre : IsBootstrapTrace cid pre) :
    IsWorkflowTrace cid k v (pre ++ Event.connect connectionProfile adminIdentity true ::
      (run c ((writeToKeyConnected cid k v gw >>= fun _ => gwClose gw) >>= fun _ => wgDone)
        w).trace) := by
  refine Or.inr (Or.inr (Or.inr (Or.inr ⟨pre, hpre, ?_⟩)))
  simp only [writeToKeyConnected, GetNetwork, GetContract, SubmitTransaction, gwClose, logPrint,
    wgDone, bind_eq, pure_eq, Prog.bind, run]
  rcases c.getNetwork gw channelName w with ⟨(e | net), w1⟩
  · exact Or.inr (Or.inl ⟨e, rfl⟩)
  · simp only [Prog.bind, run]
    rcases c.submitTransaction (c.getContract net chaincodeName w1).1 "PutState" [k, v]
      (c.getContract net chaincodeName w1).2 with ⟨(e | res), w2⟩
    · exact Or.inr (Or.inr (Or.inl ⟨e, rfl⟩))
    · exact Or.inr (Or.inr (Or.inr rfl))

theorem run_writeToKey_bootstrapped (c : Collab W Wal Gw Net Con) (cid k v : String)
    (wal : Wal) (w : W) (pre : List Event) (hpre : IsBootstrapTrace cid pre) :
    IsWorkflowTrace cid k v (pre ++
      (run c
        ((Connect connectionProfile wal adminIdentity >>= fun r =>
            match r with
            | .error err =>
              logPrint ("[" ++ cid ++ "] Failed to connect to gateway: " ++ err.Error) >>=
                fun _ => (Pure.pure () : Prog Wal Gw Net Con Unit)
            | .ok gw => writeToKeyConnected cid k v gw >>= fun _ => gwClose gw) >>=
          fun _ => wgDone) w).trace) := by
  simp only [Connect, bind_eq, Prog.bind, run]
  rcases c.connect connectionProfile wal adminIdentity w with ⟨(e | gw), w1⟩
  · refine Or.inr (Or.inr (Or.inr (Or.inr ⟨pre, hpre, Or.inl ⟨e, ?_⟩⟩)))
    simp only [logPrint, wgDone, pure_eq, Prog.bind, run, isOk]
  · exact run_writeToKey_connected c cid k v gw w1 pre hpre

theorem run_writeToKey_cases (c : Collab W Wal Gw Net Con) (cid k v : String) (w : W) :
    IsWorkflowTrace cid k v (run c (writeToKey cid k v) w).trace := by
  simp only [writeToKey, writeToKeyBody, NewFileSystemWallet, bind_eq, Prog.bind, run]
  rcases c.newFileSystemWallet walletPath w with ⟨(e | wal), w1⟩
  · refine Or.inl ⟨e, ?_⟩
    simp only [logPrint, wgDone, pure_eq, Prog.bind, run, isOk]
  · simp only [ensureAdminIdentity, walletExists, Prog.bind, bind_eq, run, isOk]
    rcases c.walletExists wal adminIdentity w1 with ⟨(_ | _), w2⟩
    · simp only [addAdminIdentityToWallet, ReadFile, walletPut, logPrint, Bool.not_false,
        if_true, Prog.bind, bind_eq, pure_eq, run]
      rcases c.readFile certPath w2 with ⟨(e | cert), w3⟩
      · refine Or.inr (Or.inl ⟨e, ?_⟩)
        simp only [wgDone, Prog.bind, run, isOk]
      · simp only [Prog.bind, run]
        rcases c.readFile keyPath w3 with ⟨(e | pk), w4⟩
        · refine Or.inr (Or.inr (Or.inl ⟨e, ?_⟩))
          simp only [wgDone, Prog.bind, run, isOk]
        · simp only [Prog.bind, run]
          rcases c.walletPut wal adminIdentity (NewX509Identity orgMSP cert pk) w4
            with ⟨(_ | e), w5⟩
          · simp only [Prog.bind, run]
            exact run_writeToKey_bootstrapped c cid k v wal w5
              [Event.newFileSystemWallet walletPath true,
               Event.walletExists adminIdentity false,
               Event.log ("[" ++ cid ++ "] Admin identity not found in wallet. Adding identity."),
               Event.log "[Admin Setup] Adding Admin identity to wallet.",
               Event.readFile certPath true, Event.readFile keyPath true,
               Event.walletPut adminIdentity (NewX509Identity orgMSP cert pk) true,
               Event.log "[Admin Setup] Admin identity successfully added to wallet."]
              (Or.inr ⟨cert, pk, rfl⟩)
          · refine Or.inr (Or.inr (Or.inr (Or.inl ⟨cert, pk, e, ?_⟩)))
            simp only [wgDone, Prog.bind, run, isOk, isNil]
    · simp only [Bool.not_true, Prog.bind, bind_eq, pure_eq, run]
      exact run_writeToKey_bootstrapped c cid k v wal w2
        [Event.newFileSystemWallet walletPath true, Event.walletExists adminIdentity true]
        (Or.inl rfl)


/-! ## Lemmas on lines and counters -/

theorem wgCounter_eq (n : Int) (t : List Event) :
    wgCounter n t = n - (t.count Event.wgDone : Nat) := by
  induction t generalizing n with
  | nil => simp [wgCounter]
  | cons e t ih =>
    cases e <;> simp [wgCounter, ih, List.count_cons]
    omega

@[simp] theorem errorfW_Error (pre : String) (e : GoError) :
    (errorfW pre e).Error = pre ++ e.Error := rfl

theorem keyPath_ne_certPath : keyPath ≠ certPath := by decide

@[simp] theorem isPrefixOf_append_left (l a b : List Char) :
    (l ++ a).isPrefixOf (l ++ b) = a.isPrefixOf b := by
  induction l with
  | nil => rfl
  | cons x l ih => simp [List.isPrefixOf, ih]

/-- A line that begins with `[clientID` followed by the text `tail` contains
`tail`. -/
theorem not_startsWith_of_not_infix (cid line tail : String)
    (h : ¬ tail.data <:+: line.data) :
    startsWith line ("[" ++ cid ++ tail) = false := by
  rw [startsWith, Bool.eq_false_iff]
  intro hp
  rw [List.isPrefixOf_iff_prefix] at hp
  obtain ⟨r, hr⟩ := hp
  apply h
  refine ⟨("[" ++ cid).data, r, ?_⟩
  rw [← hr]
  simp

@[simp] theorem adding_not_failure (cid : String) :
    isFailureLine cid "[Admin Setup] Adding Admin identity to wallet." = false :=
  not_startsWith_of_not_infix _ _ _ (by decide)

@[simp] theorem added_not_failure (cid : String) :
    isFailureLine cid "[Admin Setup] Admin identity successfully added to wallet." = false :=
  not_startsWith_of_not_infix _ _ _ (by decide)

@[simp] theorem adding_not_success (cid : String) :
    isSuccessLine cid "[Admin Setup] Adding Admin identity to wallet." = false :=
  not_startsWith_of_not_infix _ _ _ (by decide)

@[simp] theorem added_not_success (cid : String) :
    isSuccessLine cid "[Admin Setup] Admin identity successfully added to wallet." = false :=
  not_startsWith_of_not_infix _ _ _ (by decide)

theorem run_ensure_present (c : Collab W Wal Gw Net Con) (cid : String) (wal : Wal) (w : W)
    (h : (c.walletExists wal adminIdentity w).1 = true) :
    (run c (ensureAdminIdentity cid wal) w).value = none ∧
    (run c (ensureAdminIdentity cid wal) w).trace = [Event.walletExists adminIdentity true] ∧
    (run c (ensureAdminIdentity cid wal) w).world = (c.walletExists wal adminIdentity w).2 := by
  simp [ensureAdminIdentity, walletExists, bind_eq, pure_eq, Prog.bind, run, h]

theorem run_ensure_absent_ok (c : Collab W Wal Gw Net Con) (cid : String) (wal : Wal) (w : W)
    (habsent : (c.walletExists wal adminIdentity w).1 = false)
    (hok : (run c (ensureAdminIdentity cid wal) w).value = none) :
    ∃ (id : X509Identity) (w0 : W),
      (c.walletPut wal adminIdentity id w0).1 = none ∧
      (run c (ensureAdminIdentity cid wal) w).world = (c.walletPut wal adminIdentity id w0).2 ∧
      (run c (ensureAdminIdentity cid wal) w).trace =
        [Event.walletExists adminIdentity false,
         Event.log ("[" ++ cid ++ "] Admin identity not found in wallet. Adding identity."),
         Event.log "[Admin Setup] Adding Admin identity to wallet.",
         Event.readFile certPath true, Event.readFile keyPath true,
         Event.walletPut adminIdentity id true,
         Event.log "[Admin Setup] Admin identity successfully added to wallet."] := by
  revert hok
  simp only [ensureAdminIdentity, addAdminIdentityToWallet, walletExists, ReadFile, walletPut,
    logPrint, bind_eq, pure_eq, Prog.bind, run, habsent, Bool.not_false, if_true]
  obtain ⟨r1, w3, hc⟩ : ∃ r1 w3, c.readFile certPath (c.walletExists wal adminIdentity w).2 =
    (r1, w3) := ⟨_, _, rfl⟩
  simp only [hc]
  rcases r1 with e | cert
  · simp [Prog.bind, run]
  · simp only [Prog.bind, run]
    obtain ⟨r2, w4, hk⟩ : ∃ r2 w4, c.readFile keyPath w3 = (r2, w4) := ⟨_, _, rfl⟩
    simp only [hk]
    rcases r2 with e | pk
    · simp [Prog.bind, run]
    · simp only [Prog.bind, run]
      obtain ⟨r3, w5, hp⟩ : ∃ r3 w5,
        c.walletPut wal adminIdentity (NewX509Identity orgMSP cert pk) w4 = (r3, w5) :=
          ⟨_, _, rfl⟩
      simp only [hp]
      rcases r3 with _ | e
      · intro _
        refine ⟨NewX509Identity orgMSP cert pk, w4, ?_⟩
        simp [Prog.bind, run, hp, isOk, isNil]
      · simp [Prog.bind, run]

end RunLemmas

/-! ## Lemmas on the goroutines -/

section SystemLemmas

variable {W Wal Gw Net Con : Type}

/-- The two semantics agree: executing a tree to its end is taking its first
call and executing what is left. -/
theorem run_of_step {α : Type} (c : Collab W Wal Gw Net Con) (p p' : Prog Wal Gw Net Con α)
    (w w' : W) (e : Event) (h : p.step c w = some (e, p', w')) :
    (run c p w).trace = e :: (run c p' w').trace ∧
    (run c p w).value = (run c p' w').value ∧
    (run c p w).world = (run c p' w').world := by
  cases p <;> simp only [Prog.step, Option.some.injEq, Prod.mk.injEq, reduceCtorEq] at h
  all_goals
    obtain ⟨rfl, rfl, rfl⟩ := h
    simp [run]

theorem writeToKey_pending (cid k v : String) :
    Pending 15 (writeToKey cid k v : Prog Wal Gw Net Con Unit) := by
  simp only [writeToKey, writeToKeyBody, ensureAdminIdentity, writeToKeyConnected,
    addAdminIdentityToWallet, NewFileSystemWallet, walletExists, ReadFile, walletPut, Connect,
    GetNetwork, GetContract, SubmitTransaction, gwClose, logPrint, wgDone,
    bind_eq, pure_eq, Prog.bind]
  repeat' first
    | exact Pending.wgDone _
    | apply Pending.log
    | apply Pending.gwClose
    | (refine Pending.newFileSystemWallet _ _ _ fun r => ?_
       rcases r with _ | _ <;> simp only [Prog.bind])
    | (refine Pending.walletExists _ _ _ _ fun r => ?_
       rcases r with _ | _ <;>
         simp only [Prog.bind, Bool.not_true, Bool.not_false, Bool.false_eq_true, if_true,
           if_false])
    | (refine Pending.readFile _ _ _ fun r => ?_
       rcases r with _ | _ <;> simp only [Prog.bind])
    | (refine Pending.walletPut _ _ _ _ _ fun r => ?_
       rcases r with _ | _ <;> simp only [Prog.bind])
    | (refine Pending.connect _ _ _ _ _ fun r => ?_
       rcases r with _ | _ <;> simp only [Prog.bind])
    | (refine Pending.getNetwork _ _ _ _ fun r => ?_
       rcases r with _ | _ <;> simp only [Prog.bind])
    | refine Pending.getContract _ _ _ _ fun r => ?_
    | (refine Pending.submitTransaction _ _ _ _ _ fun r => ?_
       rcases r with _ | _ <;> simp only [Prog.bind])

theorem pending_step_spec {n : Nat} {p : Prog Wal Gw Net Con Unit} (h : Pending n p)
    (c : Collab W Wal Gw Net Con) (w : W) :
    ∃ e p' w' m, p.step c w = some (e, p', w') ∧ n = m + 1 ∧
      ((e = Event.wgDone ∧ p' = .pure ()) ∨ (e ≠ Event.wgDone ∧ Pending m p')) := by
  cases h with
  | wgDone n => exact ⟨_, _, _, n, rfl, rfl, Or.inl ⟨rfl, rfl⟩⟩
  | newFileSystemWallet n p k hk =>
    exact ⟨_, _, _, n, rfl, rfl, Or.inr ⟨by simp, hk _⟩⟩
  | walletExists n wal l k hk => exact ⟨_, _, _, n, rfl, rfl, Or.inr ⟨by simp, hk _⟩⟩
  | readFile n p k hk => exact ⟨_, _, _, n, rfl, rfl, Or.inr ⟨by simp, hk _⟩⟩
  | walletPut n wal l i k hk => exact ⟨_, _, _, n, rfl, rfl, Or.inr ⟨by simp, hk _⟩⟩
  | connect n p wal l k hk => exact ⟨_, _, _, n, rfl, rfl, Or.inr ⟨by simp, hk _⟩⟩
  | getNetwork n g ch k hk => exact ⟨_, _, _, n, rfl, rfl, Or.inr ⟨by simp, hk _⟩⟩
  | getContract n nt nm k hk => exact ⟨_, _, _, n, rfl, rfl, Or.inr ⟨by simp, hk _⟩⟩
  | submitTransaction n con nm args k hk =>
    exact ⟨_, _, _, n, rfl, rfl, Or.inr ⟨by simp, hk _⟩⟩
  | gwClose n g k hk => exact ⟨_, _, _, n, rfl, rfl, Or.inr ⟨by simp, hk⟩⟩
  | log n m k hk => exact ⟨_, _, _, n, rfl, rfl, Or.inr ⟨by simp, hk⟩⟩

theorem workerInv_mono {out : List SysEvent} {i n : Nat} {d : Int}
    {p : Prog Wal Gw Net Con Unit} (h : WorkerInv out i n d p) (x : List SysEvent) :
    WorkerInv (out ++ x) i n d p := by
  rcases h with h | ⟨h1, h2, h3, h4⟩
  · exact Or.inl h
  · exact Or.inr ⟨h1, h2, h3, List.mem_append_left _ h4⟩

theorem workerInv_step {out : List SysEvent} {i n : Nat} {d : Int}
    {p p' : Prog Wal Gw Net Con Unit} (h : WorkerInv out i n d p)
    (c : Collab W Wal Gw Net Con) {w w' : W} {e : Event}
    (hs : p.step c w = some (e, p', w')) :
    ∃ n' d', n' < n ∧ WorkerInv (out ++ [.worker i e]) i n' d' p' ∧
      (if e = Event.wgDone then d - 1 else d) = d' := by
  rcases h with ⟨hp, hd⟩ | ⟨h1, _, _, _⟩
  · obtain ⟨e0, p0, w0, m, hs0, hn, hcase⟩ := pending_step_spec hp c w
    rw [hs0] at hs
    simp only [Option.some.injEq, Prod.mk.injEq] at hs
    obtain ⟨rfl, rfl, rfl⟩ := hs
    rcases hcase with ⟨he, hp0⟩ | ⟨he, hp0⟩
    · refine ⟨0, 0, by omega, Or.inr ⟨hp0, rfl, rfl, ?_⟩, ?_⟩
      · simp [he]
      · simp [he, hd]
    · exact ⟨m, 1, by omega, Or.inl ⟨hp0, rfl⟩, by simp [he, hd]⟩
  · subst h1
    simp [Prog.step] at hs

theorem workerInv_enabled {out : List SysEvent} {i n : Nat}
    {p : Prog Wal Gw Net Con Unit} (h : WorkerInv out i n 1 p)
    (c : Collab W Wal Gw Net Con) (w : W) : (p.step c w).isSome = true := by
  rcases h with ⟨hp, _⟩ | ⟨_, _, h3, _⟩
  · obtain ⟨e0, p0, w0, m, hs0, _⟩ := pending_step_spec hp c w
    simp [hs0]
  · simp at h3

theorem workerInv_cases {out : List SysEvent} {i n : Nat} {d : Int}
    {p : Prog Wal Gw Net Con Unit} (h : WorkerInv out i n d p) :
    d = 1 ∨ (d = 0 ∧ n = 0 ∧ p = .pure () ∧ SysEvent.worker i Event.wgDone ∈ out) := by
  rcases h with ⟨_, hd⟩ | ⟨h1, h2, h3, h4⟩
  · exact Or.inl hd
  · exact Or.inr ⟨h3, h2, h1, h4⟩

theorem inv_step {s s' : Sys W Wal Gw Net Con} {m : Nat} (h : Inv s m)
    (c : Collab W Wal Gw Net Con) (a : Actor) (hs : s.step c a = some s') :
    ∃ m', m' < m ∧ Inv s' m' := by
  obtain ⟨world, counter, mainRest, workers, out⟩ := s
  rcases h with ⟨h1, h2, h3, h4, h5⟩ | ⟨h1, h2, h3, h4, h5, h6⟩ |
    ⟨h1, h2, p1, n1, d1, h3, h4, h5, h6, h7⟩ |
    ⟨h1, h2, p1, p2, n1, n2, d1, d2, h3, h4, h5, h6, h7, h8, h9⟩ |
    ⟨h1, h2, h3, h4, h5, h6, h7⟩ | ⟨h1, h2, h3, pre, h4, h5, h6, h7⟩
  all_goals dsimp only at *
  all_goals subst_vars
  · cases a with
    | main =>
      simp only [Sys.step, main, Option.some.injEq] at hs
      subst hs
      exact ⟨34, by omega, Or.inr (Or.inl ⟨rfl, by simp, rfl, by simp [SysEvent.isPrintln],
        by simp [SysEvent.isWorker], rfl⟩)⟩
    | worker i => simp [Sys.step] at hs
  · cases a with
    | main =>
      simp only [Sys.step, main, List.drop, Option.some.injEq] at hs
      subst hs
      refine ⟨33, by omega, Or.inr (Or.inr (Or.inl ⟨rfl, ?_, _, 15, 1, rfl,
        Or.inl ⟨writeToKey_pending _ _ _, rfl⟩, le_refl _, rfl, rfl⟩))⟩
      simp [List.countP_append, h4, SysEvent.isPrintln]
    | worker i => simp [Sys.step] at hs
  · cases a with
    | main =>
      simp only [Sys.step, main, List.drop, Option.some.injEq] at hs
      subst hs
      refine ⟨17 + n1, by omega, Or.inr (Or.inr (Or.inr (Or.inl ⟨rfl, ?_, p1, _, n1, 15, d1, 1,
        rfl, workerInv_mono h4 _, Or.inl ⟨writeToKey_pending _ _ _, rfl⟩, h5, le_refl _,
        by dsimp only; omega, by omega⟩)))⟩
      simp [List.countP_append, h2, SysEvent.isPrintln]
    | worker i =>
      rcases i with _ | i
      · simp only [Sys.step, List.getElem?_cons_zero] at hs
        rcases hst : p1.step c world with _ | ⟨e, p', w'⟩
        · simp [hst] at hs
        · simp only [hst, Option.some.injEq] at hs
          subst hs
          obtain ⟨n', d', hn, hw, hd⟩ := workerInv_step h4 c hst
          refine ⟨18 + n', by omega, Or.inr (Or.inr (Or.inl ⟨rfl, ?_, p', n', d', by simp, hw,
            by omega, ?_, rfl⟩))⟩
          · simp [List.countP_append, h2, SysEvent.isPrintln]
          · dsimp only
            rw [← hd]
            split <;> omega
      · simp [Sys.step] at hs
  · cases a with
    | main =>
      simp only [Sys.step, main, List.drop] at hs
      split at hs
      · rename_i hz
        simp only [Option.some.injEq] at hs
        subst hs
        rcases workerInv_cases h4 with hd1 | ⟨hd1, hn1, hp1, ho1⟩
        · rcases workerInv_cases h5 with hd2 | ⟨hd2, _, _, _⟩ <;> omega
        · rcases workerInv_cases h5 with hd2 | ⟨hd2, hn2, hp2, ho2⟩
          · omega
          · subst hp1 hp2
            refine ⟨1, by omega, Or.inr (Or.inr (Or.inr (Or.inr (Or.inl ⟨rfl, ?_, rfl, hz,
              List.mem_append_left _ ho1, List.mem_append_left _ ho2, rfl⟩))))⟩
            simp [List.countP_append, h2, SysEvent.isPrintln]
      · simp at hs
    | worker i =>
      rcases i with _ | _ | i
      · simp only [Sys.step, List.getElem?_cons_zero] at hs
        rcases hst : p1.step c world with _ | ⟨e, p', w'⟩
        · simp [hst] at hs
        · simp only [hst, Option.some.injEq] at hs
          subst hs
          obtain ⟨n', d', hn, hw, hd⟩ := workerInv_step h4 c hst
          refine ⟨2 + n' + n2, by omega, Or.inr (Or.inr (Or.inr (Or.inl ⟨rfl, ?_, p', p2, n', n2,
            d', d2, by simp, hw, workerInv_mono h5 _, by omega, h7, ?_, rfl⟩)))⟩
          · simp [List.countP_append, h2, SysEvent.isPrintln]
          · dsimp only
            rw [← hd]
            split <;> omega
      · simp only [Sys.step, List.getElem?_cons_succ, List.getElem?_cons_zero] at hs
        rcases hst : p2.step c world with _ | ⟨e, p', w'⟩
        · simp [hst] at hs
        · simp only [hst, Option.some.injEq] at hs
          subst hs
          obtain ⟨n', d', hn, hw, hd⟩ := workerInv_step h5 c hst
          refine ⟨2 + n1 + n', by omega, Or.inr (Or.inr (Or.inr (Or.inl ⟨rfl, ?_, p1, p', n1, n',
            d1, d', by simp, workerInv_mono h4 _, hw, h6, by omega, ?_, rfl⟩)))⟩
          · simp [List.countP_append, h2, SysEvent.isPrintln]
          · dsimp only
            rw [← hd]
            split <;> omega
      · simp [Sys.step] at hs
  · cases a with
    | main =>
      simp only [Sys.step, main, List.drop, Option.some.injEq] at hs
      subst hs
      exact ⟨0, by omega, Or.inr (Or.inr (Or.inr (Or.inr (Or.inr
        ⟨rfl, rfl, rfl, out, rfl, h2, h5, h6⟩))))⟩
    | worker i =>
      rcases i with _ | _ | i <;> simp [Sys.step, Prog.step] at hs
  · cases a with
    | main => simp [Sys.step] at hs
    | worker i =>
      rcases i with _ | _ | i <;> simp [Sys.step, Prog.step] at hs

theorem inv_init (w : W) : Inv (Sys.init w : Sys W Wal Gw Net Con) 35 :=
  Or.inl ⟨rfl, rfl, rfl, rfl, rfl⟩

theorem inv_exec (c : Collab W Wal Gw Net Con) (sched : List Actor) :
    ∀ {s s' : Sys W Wal Gw Net Con} {m : Nat}, Inv s m → Sys.exec c sched s = some s' →
      ∃ m', Inv s' m' ∧ m' + sched.length ≤ m := by
  induction sched with
  | nil =>
    intro s s' m h hs
    simp only [Sys.exec, Option.some.injEq] at hs
    subst hs
    exact ⟨m, h, by simp⟩
  | cons a rest ih =>
    intro s s' m h hs
    simp only [Sys.exec] at hs
    rcases hst : s.step c a with _ | s1
    · simp [hst] at hs
    · simp only [hst] at hs
      obtain ⟨m1, hm1, h1⟩ := inv_step h c a hst
      obtain ⟨m', h', hle⟩ := ih h1 hs
      exact ⟨m', h', by simp only [List.length_cons]; omega⟩

theorem inv_progress {s : Sys W Wal Gw Net Con} {m : Nat} (h : Inv s m)
    (c : Collab W Wal Gw Net Con) (hm : 0 < m) : ∃ a, (s.step c a).isSome = true := by
  obtain ⟨world, counter, mainRest, workers, out⟩ := s
  rcases h with ⟨h1, h2, h3, h4, h5⟩ | ⟨h1, h2, h3, h4, h5, h6⟩ |
    ⟨h1, h2, p1, n1, d1, h3, h4, h5, h6, h7⟩ |
    ⟨h1, h2, p1, p2, n1, n2, d1, d2, h3, h4, h5, h6, h7, h8, h9⟩ |
    ⟨h1, h2, h3, h4, h5, h6, h7⟩ | ⟨h1, h2, h3, pre, h4, h5, h6, h7⟩
  all_goals dsimp only at *
  all_goals subst_vars
  · exact ⟨.main, by simp [Sys.step, main]⟩
  · exact ⟨.main, by simp [Sys.step, main]⟩
  · exact ⟨.main, by simp [Sys.step, main]⟩
  · rcases workerInv_cases h4 with hd1 | ⟨hd1, _, _, _⟩
    · subst hd1
      refine ⟨.worker 0, ?_⟩
      have := workerInv_enabled h4 c world
      rcases hst : p1.step c world with _ | ⟨e, p', w'⟩
      · simp [hst] at this
      · simp [Sys.step, hst]
    · rcases workerInv_cases h5 with hd2 | ⟨hd2, _, _, _⟩
      · subst hd2
        refine ⟨.worker 1, ?_⟩
        have := workerInv_enabled h5 c world
        rcases hst : p2.step c world with _ | ⟨e, p', w'⟩
        · simp [hst] at this
        · simp [Sys.step, hst]
      · exact ⟨.main, by simp [Sys.step, main, hd1, hd2]⟩
  · exact ⟨.main, by simp [Sys.step, main]⟩
  · omega

theorem inv_facts {s : Sys W Wal Gw Net Con} {m : Nat} (h : Inv s m) :
    (0 < m → s.out.countP SysEvent.isPrintln = 0) ∧
    (m = 0 → s.workers = [.pure (), .pure ()] ∧
      ∃ pre, s.out =
          pre ++ [.main (.println "Both clients attempted to write to the same key.")] ∧
        pre.countP SysEvent.isPrintln = 0 ∧
        SysEvent.worker 0 Event.wgDone ∈ pre ∧ SysEvent.worker 1 Event.wgDone ∈ pre) := by
  rcases h with ⟨h1, h2, h3, h4, h5⟩ | ⟨h1, h2, h3, h4, h5, h6⟩ |
    ⟨h1, h2, p1, n1, d1, h3, h4, h5, h6, h7⟩ |
    ⟨h1, h2, p1, p2, n1, n2, d1, d2, h3, h4, h5, h6, h7, h8, h9⟩ |
    ⟨h1, h2, h3, h4, h5, h6, h7⟩ | ⟨h1, h2, h3, pre, h4, h5, h6, h7⟩
  · exact ⟨fun _ => by simp [h4], fun h0 => by omega⟩
  · exact ⟨fun _ => h4, fun h0 => by omega⟩
  · exact ⟨fun _ => h2, fun h0 => by omega⟩
  · exact ⟨fun _ => h2, fun h0 => by omega⟩
  · exact ⟨fun _ => h2, fun h0 => by omega⟩
  · exact ⟨fun hm => by omega, fun _ => ⟨h2, pre, h4, h5, h6, h7⟩⟩

end SystemLemmas

/-! ## The claims on `writeToKey` -/

section Claims

variable {W Wal Gw Net Con : Type}

/-- C6: for every behaviour of the collaborators `writeToKey` runs to its end
and calls `wg.Done()` exactly once, as its last action; hence a WaitGroup counter
set to 2 is at 0 after two workflows, whatever each of them met and in whatever
order their calls were made. -/
theorem writeToKey_signals_done_once (c1 c2 : Collab W Wal Gw Net Con)
    (cid1 k1 v1 cid2 k2 v2 : String) (w1 w2 : W) :
    (run c1 (writeToKey cid1 k1 v1) w1).trace.count Event.wgDone = 1 ∧
    (run c1 (writeToKey cid1 k1 v1) w1).trace.getLast? = some Event.wgDone ∧
    ∀ t : List Event,
      t.Perm ((run c1 (writeToKey cid1 k1 v1) w1).trace ++
        (run c2 (writeToKey cid2 k2 v2) w2).trace) → wgCounter 2 t = 0 := by
  have key : ∀ (c : Collab W Wal Gw Net Con) (cid k v : String) (w : W),
      (run c (writeToKey cid k v) w).trace.count Event.wgDone = 1 ∧
      (run c (writeToKey cid k v) w).trace.getLast? = some Event.wgDone := by
    intro c cid k v w
    rcases run_writeToKey_cases c cid k v w with ⟨e, h⟩ | ⟨e, h⟩ | ⟨e, h⟩ | ⟨cert, pk, e, h⟩ |
      ⟨pre, hpre, ⟨e, h⟩ | ⟨e, h⟩ | ⟨e, h⟩ | h⟩
    all_goals try rcases hpre with rfl | ⟨cert, pk, rfl⟩
    all_goals simp [h, List.count_cons]
  refine ⟨(key c1 cid1 k1 v1 w1).1, (key c1 cid1 k1 v1 w1).2, ?_⟩
  intro t ht
  rw [wgCounter_eq, ht.count_eq, List.count_append, (key c1 cid1 k1 v1 w1).1,
    (key c2 cid2 k2 v2 w2).1]
  rfl

/-- C4: in `writeToKey` the gateway is closed exactly once if `gateway.Connect`
returned a gateway and never otherwise: the number of `gw.Close()` calls equals
the number of successful `Connect` calls, which is at most one, and when it is
one the close is the last action before `wg.Done()`, whatever `GetNetwork` and
`SubmitTransaction` returned. -/
theorem gateway_closed_iff_connected (c : Collab W Wal Gw Net Con) (cid k v : String) (w : W) :
    (run c (writeToKey cid k v) w).trace.count Event.gwClose =
      (run c (writeToKey cid k v) w).trace.countP Event.isConnectOk ∧
    (run c (writeToKey cid k v) w).trace.countP Event.isConnectOk ≤ 1 ∧
    ((run c (writeToKey cid k v) w).trace.countP Event.isConnectOk = 1 →
      (run c (writeToKey cid k v) w).trace.drop
        ((run c (writeToKey cid k v) w).trace.length - 2) = [Event.gwClose, Event.wgDone]) := by
  rcases run_writeToKey_cases c cid k v w with ⟨e, h⟩ | ⟨e, h⟩ | ⟨e, h⟩ | ⟨cert, pk, e, h⟩ |
    ⟨pre, hpre, ⟨e, h⟩ | ⟨e, h⟩ | ⟨e, h⟩ | h⟩
  all_goals try rcases hpre with rfl | ⟨cert, pk, rfl⟩
  all_goals rw [h]
  all_goals simp [List.count_cons, List.countP_cons, Event.isConnectOk]

/-- C5: when no call before the submission fails (wallet, bootstrap, connect,
channel and contract resolution), `writeToKey` submits exactly one transaction,
the operation `PutState` with the arguments `[key, value]` in that order; and
when the submission succeeds the only success line logged is
`[clientID] Successfully wrote key: <key> with value: <value>`. -/
theorem writeToKey_submits_PutState (c : Collab W Wal Gw Net Con) (cid k v : String) (w : W)
    (h15 : ∀ e ∈ (run c (writeToKey cid k v) w).trace, e.isEarlyFailure = false) :
    ∃ ok : Bool,
      (run c (writeToKey cid k v) w).trace.filter Event.isSubmit =
        [Event.submitTransaction "PutState" [k, v] ok] ∧
      (ok = true →
        (logLines (run c (writeToKey cid k v) w).trace).filter (isSuccessLine cid) =
          ["[" ++ cid ++ "] Successfully wrote key: " ++ k ++ " with value: " ++ v]) := by
  rcases run_writeToKey_cases c cid k v w with ⟨e, h⟩ | ⟨e, h⟩ | ⟨e, h⟩ | ⟨cert, pk, e, h⟩ |
    ⟨pre, hpre, ⟨e, h⟩ | ⟨e, h⟩ | ⟨e, h⟩ | h⟩
  all_goals try rcases hpre with rfl | ⟨cert, pk, rfl⟩
  all_goals rw [h] at h15 ⊢
  all_goals first
    | (exfalso; revert h15; simp [Event.isEarlyFailure, Event.isFailure]; done)
    | (refine ⟨false, ?_, ?_⟩ <;> simp [Event.isSubmit]; done)
    | (refine ⟨true, ?_, ?_⟩ <;>
        simp only [logLines, List.filterMap_cons, List.filterMap_nil, List.cons_append,
          List.nil_append, Event.logMsg, List.filter_cons, List.filter_nil,
          adding_not_success, added_not_success] <;>
        simp [Event.isSubmit, isSuccessLine, startsWith, List.isPrefixOf])

/-- C3: when a call fails at one of the steps before the submission (building
the wallet, the bootstrap, `Connect`, `GetNetwork`), `writeToKey` logs exactly
one failure line, that line is tagged `[clientID]`, and `SubmitTransaction` is
never called. -/
theorem early_failure_logged_once (c : Collab W Wal Gw Net Con) (cid k v : String) (w : W)
    (hfail : ∃ e ∈ (run c (writeToKey cid k v) w).trace, e.isEarlyFailure = true) :
    (∃ line : String,
      (logLines (run c (writeToKey cid k v) w).trace).filter (isFailureLine cid) = [line] ∧
      isTagged cid line = true) ∧
    (run c (writeToKey cid k v) w).trace.countP Event.isSubmit = 0 := by
  rcases run_writeToKey_cases c cid k v w with ⟨e, h⟩ | ⟨e, h⟩ | ⟨e, h⟩ | ⟨cert, pk, e, h⟩ |
    ⟨pre, hpre, ⟨e, h⟩ | ⟨e, h⟩ | ⟨e, h⟩ | h⟩
  all_goals try rcases hpre with rfl | ⟨cert, pk, rfl⟩
  all_goals rw [h] at hfail ⊢
  all_goals first
    | (exfalso; revert hfail; simp [Event.isEarlyFailure, Event.isFailure]; done)
    | (simp only [logLines, List.filterMap_cons, List.filterMap_nil, List.cons_append,
        List.nil_append, Event.logMsg, List.filter_cons, List.filter_nil,
        adding_not_failure, added_not_failure]
       simp [Event.isSubmit, isFailureLine, isTagged, startsWith,
        List.isPrefixOf, List.countP_cons, errorfW, GoError.Error])

/-- C9, as stated, fails: with the identity absent from the wallet, the
workflow of `Client1` logs the line `[Admin Setup] Adding Admin identity to
wallet.`, which does not begin with `[Client1]`. -/
theorem admin_setup_line_not_tagged :
    ¬ ∀ m ∈ logLines
        (run fakeCollab (writeToKey "Client1" "conflictKey" "ValueFromClient1") freshWorld).trace,
      isTagged "Client1" m = true := by
  decide

/-- C9, amended: every line logged during `writeToKey` either begins with
`[clientID]` or is one of the two lines of `addAdminIdentityToWallet`, which are
tagged `[Admin Setup]`; when the identity is found in the wallet every line
begins with `[clientID]`. -/
theorem log_lines_tagged_or_admin_setup (c : Collab W Wal Gw Net Con) (cid k v : String)
    (w : W) :
    (∀ m ∈ logLines (run c (writeToKey cid k v) w).trace,
      isTagged cid m = true ∨
      m = "[Admin Setup] Adding Admin identity to wallet." ∨
      m = "[Admin Setup] Admin identity successfully added to wallet.") ∧
    (Event.walletExists adminIdentity true ∈ (run c (writeToKey cid k v) w).trace →
      ∀ m ∈ logLines (run c (writeToKey cid k v) w).trace, isTagged cid m = true) := by
  rcases run_writeToKey_cases c cid k v w with ⟨e, h⟩ | ⟨e, h⟩ | ⟨e, h⟩ | ⟨cert, pk, e, h⟩ |
    ⟨pre, hpre, ⟨e, h⟩ | ⟨e, h⟩ | ⟨e, h⟩ | h⟩
  all_goals try rcases hpre with rfl | ⟨cert, pk, rfl⟩
  all_goals rw [h]
  all_goals simp [logLines, Event.logMsg, isTagged, startsWith, List.isPrefixOf]

/-- C10: every run of `writeToKey` ends with exactly one outcome line and its
steps short-circuit. If no call fails, the wallet, connect, channel and submit
calls all took place and succeeded, the success line is the only outcome line
logged; otherwise no success line is logged, exactly one `[clientID] Failed`
line is logged, it names the first call that failed, and after that call the
workflow only logs, releases the gateway and signals completion. The success
line is logged if and only if no call failed. -/
theorem writeToKey_one_outcome_line (c : Collab W Wal Gw Net Con) (cid k v : String) (w : W) :
    (match firstFailure (run c (writeToKey cid k v) w).trace with
      | none =>
        (logLines (run c (writeToKey cid k v) w).trace).filter (isSuccessLine cid) =
          ["[" ++ cid ++ "] Successfully wrote key: " ++ k ++ " with value: " ++ v] ∧
        (logLines (run c (writeToKey cid k v) w).trace).filter (isFailureLine cid) = [] ∧
        Event.newFileSystemWallet walletPath true ∈ (run c (writeToKey cid k v) w).trace ∧
        Event.connect connectionProfile adminIdentity true ∈
          (run c (writeToKey cid k v) w).trace ∧
        Event.getNetwork channelName true ∈ (run c (writeToKey cid k v) w).trace ∧
        Event.submitTransaction "PutState" [k, v] true ∈ (run c (writeToKey cid k v) w).trace
      | some f =>
        (logLines (run c (writeToKey cid k v) w).trace).filter (isSuccessLine cid) = [] ∧
        (∃ line : String,
          (logLines (run c (writeToKey cid k v) w).trace).filter (isFailureLine cid) = [line] ∧
          startsWith line ("[" ++ cid ++ "] " ++ f.failureText) = true ∧
          line ∈ logLines (afterFirstFailure (run c (writeToKey cid k v) w).trace)) ∧
        ∀ x ∈ afterFirstFailure (run c (writeToKey cid k v) w).trace,
          x.isLog = true ∨ x = Event.gwClose ∨ x = Event.wgDone) ∧
    ((logLines (run c (writeToKey cid k v) w).trace).filter (isSuccessLine cid) ≠ [] ↔
      ∀ e ∈ (run c (writeToKey cid k v) w).trace, e.isFailure = false) := by
  rcases run_writeToKey_cases c cid k v w with ⟨e, h⟩ | ⟨e, h⟩ | ⟨e, h⟩ | ⟨cert, pk, e, h⟩ |
    ⟨pre, hpre, ⟨e, h⟩ | ⟨e, h⟩ | ⟨e, h⟩ | h⟩
  all_goals try rcases hpre with rfl | ⟨cert, pk, rfl⟩
  all_goals rw [h]
  all_goals simp only [firstFailure, afterFirstFailure, logLines, List.filterMap_cons,
    List.filterMap_nil, List.cons_append, List.nil_append, Event.logMsg, List.filter_cons,
    List.filter_nil, List.find?_cons, List.dropWhile_cons, List.tail_cons, Event.isFailure,
    Bool.not_true, Bool.not_false,
    adding_not_success, added_not_success, adding_not_failure, added_not_failure]
  all_goals simp [Event.isFailure, Event.isLog, Event.failureText, Event.logMsg, isSuccessLine,
    isFailureLine, startsWith, List.isPrefixOf, keyPath_ne_certPath]

/-- C2: whatever the wallet and the key file hold, if reading the certificate
file fails then `addAdminIdentityToWallet` returns the error
`failed to read cert.pem: <read error>` wrapping the read error, after logging
one line and making that single file read: the key file is not read,
`wallet.Put` is not called, and the world is as the failed read left it. -/
theorem addAdmin_cert_unreadable (c : Collab W Wal Gw Net Con) (wallet : Wal) (w w1 : W)
    (e : GoError) (hread : c.readFile certPath w = (.error e, w1)) :
    (run c (addAdminIdentityToWallet wallet) w).value =
      some (errorfW "failed to read cert.pem: " e) ∧
    (errorfW "failed to read cert.pem: " e).Unwrap = some e ∧
    (errorfW "failed to read cert.pem: " e).Error = "failed to read cert.pem: " ++ e.Error ∧
    (run c (addAdminIdentityToWallet wallet) w).trace =
      [Event.log "[Admin Setup] Adding Admin identity to wallet.",
       Event.readFile certPath false] ∧
    (run c (addAdminIdentityToWallet wallet) w).trace.countP Event.isPut = 0 ∧
    (run c (addAdminIdentityToWallet wallet) w).world = w1 := by
  simp [addAdminIdentityToWallet, ReadFile, logPrint, bind_eq, pure_eq, Prog.bind, run, hread,
    isOk, errorfW, GoError.Unwrap, GoError.Error, Event.isPut]

/-- C1: the bootstrap step of `writeToKey` is idempotent. On a store that lacks
the identity and in which a successful `Put` makes `Exists` true, a first
bootstrap that succeeds reads the certificate and the key file and calls `Put`
once; a second bootstrap run right after it only checks `Exists`: it reads no
file, writes nothing and succeeds. -/
theorem bootstrap_idempotent (c : Collab W Wal Gw Net Con) (cid1 cid2 : String)
    (wal1 wal2 : Wal) (w : W)
    (hput : ∀ (id : X509Identity) (w0 : W), (c.walletPut wal1 adminIdentity id w0).1 = none →
      (c.walletExists wal2 adminIdentity (c.walletPut wal1 adminIdentity id w0).2).1 = true)
    (habsent : (c.walletExists wal1 adminIdentity w).1 = false)
    (hfirst : (run c (ensureAdminIdentity cid1 wal1) w).value = none) :
    (run c (ensureAdminIdentity cid1 wal1) w).trace.filter Event.isReadFile =
      [Event.readFile certPath true, Event.readFile keyPath true] ∧
    (run c (ensureAdminIdentity cid1 wal1) w).trace.countP Event.isPut = 1 ∧
    (run c (ensureAdminIdentity cid2 wal2)
      (run c (ensureAdminIdentity cid1 wal1) w).world).trace =
        [Event.walletExists adminIdentity true] ∧
    (run c (ensureAdminIdentity cid2 wal2)
      (run c (ensureAdminIdentity cid1 wal1) w).world).value = none := by
  obtain ⟨id, w0, hp, hw, ht⟩ := run_ensure_absent_ok c cid1 wal1 w habsent hfirst
  have h2 := run_ensure_present c cid2 wal2 (run c (ensureAdminIdentity cid1 wal1) w).world
    (by rw [hw]; exact hput id w0 hp)
  refine ⟨?_, ?_, h2.2.1, h2.1⟩
  · rw [ht]; simp [Event.isReadFile]
  · rw [ht]; simp [Event.isPut]

/-! ## The claims on `main` -/

/-- C7: `main` launches exactly two workflows, tagged `Client1` and `Client2`,
on the same key `conflictKey` with the different values `ValueFromClient1` and
`ValueFromClient2`, and the WaitGroup counter it sets before launching them is
the number of workflows launched, 2; after the first three steps of `main` the
two goroutines are the two `writeToKey` calls and the counter is 2. -/
theorem main_launches_two_workflows (c : Collab W Wal Gw Net Con) (w : W) :
    launched main =
      [("Client1", "conflictKey", "ValueFromClient1"),
       ("Client2", "conflictKey", "ValueFromClient2")] ∧
    "Client1" ≠ "Client2" ∧ "ValueFromClient1" ≠ "ValueFromClient2" ∧
    main.head? = some (.wgAdd 2) ∧
    addedTotal main = 2 ∧ addedTotal main = (launched main).length ∧
    (Sys.exec c [.main, .main, .main] (Sys.init w)).map (fun s => (s.counter, s.workers)) =
      some (2, [writeToKey "Client1" "conflictKey" "ValueFromClient1",
                writeToKey "Client2" "conflictKey" "ValueFromClient2"]) := by
  refine ⟨by decide, by decide, by decide, by decide, by decide, by decide, ?_⟩
  simp [Sys.exec, Sys.step, Sys.init, main]

/-- C8: in every run of the program, under every schedule of the goroutines and
every behaviour of the collaborators, the run takes at most 35 steps, at most one
line is printed on standard output, and once a line has been printed it is the
completion line, it is the last step taken, both workflows have returned and
their `wg.Done()` calls come before it; a run that cannot go on has printed the
line once. -/
theorem completion_line_once_after_workflows (c : Collab W Wal Gw Net Con) (w : W)
    (sched : List Actor) (s : Sys W Wal Gw Net Con)
    (hrun : Sys.exec c sched (Sys.init w) = some s) :
    sched.length ≤ 35 ∧
    s.out.countP SysEvent.isPrintln ≤ 1 ∧
    (s.out.countP SysEvent.isPrintln = 1 →
      s.workers = [.pure (), .pure ()] ∧
      ∃ pre, s.out =
          pre ++ [.main (.println "Both clients attempted to write to the same key.")] ∧
        pre.countP SysEvent.isPrintln = 0 ∧
        SysEvent.worker 0 Event.wgDone ∈ pre ∧ SysEvent.worker 1 Event.wgDone ∈ pre) ∧
    ((∀ a, s.step c a = none) → s.out.countP SysEvent.isPrintln = 1) := by
  obtain ⟨m, hinv, hle⟩ := inv_exec c sched (inv_init w) hrun
  have hf := inv_facts hinv
  have hone : m = 0 → s.out.countP SysEvent.isPrintln = 1 := by
    intro h0
    obtain ⟨_, pre, hout, hpre, _, _⟩ := hf.2 h0
    rw [hout]
    simp [List.countP_append, hpre, SysEvent.isPrintln]
  refine ⟨by omega, ?_, ?_, ?_⟩
  · rcases Nat.eq_zero_or_pos m with h0 | hpos
    · rw [hone h0]
    · rw [hf.1 hpos]; omega
  · intro h1
    rcases Nat.eq_zero_or_pos m with h0 | hpos
    · exact hf.2 h0
    · rw [hf.1 hpos] at h1; omega
  · intro hstuck
    rcases Nat.eq_zero_or_pos m with h0 | hpos
    · exact hone h0
    · obtain ⟨a, ha⟩ := inv_progress hinv c hpos
      rw [hstuck a] at ha
      simp at ha

/-! ## The claims at concrete inputs -/

/-- The bootstrap run twice on the test double, starting from the fresh world:
the second run only checks `Exists`. -/
theorem bootstrap_idempotent_witness :
    (fakeCollab.walletExists () adminIdentity freshWorld).1 = false ∧
    (run fakeCollab (ensureAdminIdentity "Client1" ()) freshWorld).value = none ∧
    (run fakeCollab (ensureAdminIdentity "Client2" ())
      (run fakeCollab (ensureAdminIdentity "Client1" ()) freshWorld).world).trace =
        [Event.walletExists adminIdentity true] :=
  ⟨by decide, by decide,
    (bootstrap_idempotent fakeCollab "Client1" "Client2" () () freshWorld
      (fun _ _ _ => by simp [fakeCollab]) (by decide) (by decide)).2.2.1⟩

/-- The test double without the certificate file: the read fails and nothing is
put in the wallet. -/
theorem addAdmin_cert_unreadable_witness :
    fakeCollab.readFile certPath noCertWorld =
      (.error (.leaf ("open " ++ certPath ++ ": no such file or directory")), noCertWorld) ∧
    (run fakeCollab (addAdminIdentityToWallet ()) noCertWorld).trace.countP Event.isPut = 0 :=
  ⟨rfl,
    (addAdmin_cert_unreadable fakeCollab () noCertWorld noCertWorld
      (.leaf ("open " ++ certPath ++ ": no such file or directory")) rfl).2.2.2.2.1⟩

/-- The workflow of `Client1` on the test double without the certificate file:
the bootstrap fails and no transaction is submitted. -/
theorem early_failure_logged_once_witness :
    (∃ e ∈ (run fakeCollab (writeToKey "Client1" "conflictKey" "ValueFromClient1")
      noCertWorld).trace, e.isEarlyFailure = true) ∧
    (run fakeCollab (writeToKey "Client1" "conflictKey" "ValueFromClient1")
      noCertWorld).trace.countP Event.isSubmit = 0 :=
  ⟨by decide,
    (early_failure_logged_once fakeCollab "Client1" "conflictKey" "ValueFromClient1" noCertWorld
      (by decide)).2⟩

/-- The workflow of `Client1` on the test double in the fresh world: no call
fails and the one transaction submitted is `PutState [conflictKey, ValueFromClient1]`. -/
theorem writeToKey_submits_PutState_witness :
    (∀ e ∈ (run fakeCollab (writeToKey "Client1" "conflictKey" "ValueFromClient1")
      freshWorld).trace, e.isEarlyFailure = false) ∧
    ∃ ok : Bool,
      (run fakeCollab (writeToKey "Client1" "conflictKey" "ValueFromClient1")
        freshWorld).trace.filter Event.isSubmit =
          [Event.submitTransaction "PutState" ["conflictKey", "ValueFromClient1"] ok] ∧
      (ok = true →
        (logLines (run fakeCollab (writeToKey "Client1" "conflictKey" "ValueFromClient1")
          freshWorld).trace).filter (isSuccessLine "Client1") =
          ["[" ++ "Client1" ++ "] Successfully wrote key: " ++ "conflictKey" ++
            " with value: " ++ "ValueFromClient1"]) :=
  ⟨by decide,
    writeToKey_submits_PutState fakeCollab "Client1" "conflictKey" "ValueFromClient1" freshWorld
      (by decide)⟩

/-- The schedule `demoSchedule` on the test double can be run to its end, and its
final state satisfies what holds of every run. -/
theorem completion_line_witness :
    (Sys.exec fakeCollab demoSchedule (Sys.init freshWorld)).isSome = true ∧
    demoSchedule.length ≤ 35 ∧
    demoFinal.out.countP SysEvent.isPrintln ≤ 1 ∧
    ((∀ a, demoFinal.step fakeCollab a = none) →
      demoFinal.out.countP SysEvent.isPrintln = 1) :=
  have h := completion_line_once_after_workflows fakeCollab freshWorld demoSchedule demoFinal
    (by rfl)
  ⟨by rfl, h.1, h.2.1, h.2.2.2⟩

end Claims
end ConflictSim
